import Mathlib

/-!
Shallow embedding of the bibliography-formatting and version-lookup helpers
of `docs/conf.py` (ComPWA organization documentation configuration), together
with theorems settling the specification claims about them.

Rich text produced by the formatters is modelled as a flat list of
`Fragment`s: plain text, emphasized text (pybtex `Tag("em", ...)`), and
hyperlinks (pybtex `href`, carrying a target URL and a display string).
Rendered person names are modelled as plain strings (the output of the
external `style.format_name`); a name is "empty" exactly when the string is
empty, matching pybtex `Text` falsiness.  Fallible template evaluation
(pybtex `field(...)` raising `FieldIsMissing`) is modelled with `Except`.
-/

/-!
Executable models of the Python string methods the source uses.  Lean core's
`String.replace`, `String.splitOn` and `String.trim` are compiled by
well-founded recursion and do not reduce inside the kernel, so the methods
are re-implemented here over `List Char` with structural recursion; each
definition states which Python method it models.
-/

/-- One step bound for `pyReplaceAux`/`pySplitAux`: the recursion consumes at
least one character of the subject per unit of fuel, so the subject's length
is always enough fuel. -/
def pyReplaceAux (pat rep : List Char) : Nat → List Char → List Char
  | _, [] => []
  | 0, s => s
  | fuel + 1, c :: cs =>
    if pat.isPrefixOf (c :: cs) then
      rep ++ pyReplaceAux pat rep fuel (cs.drop (pat.length - 1))
    else
      c :: pyReplaceAux pat rep fuel cs

/-- Python `s.replace(pat, rep)` for a non-empty pattern: every
left-to-right, non-overlapping occurrence of `pat` in `s` is replaced by
`rep`.  (For an empty pattern the subject is returned unchanged; the source
never passes one.) -/
def pyReplace (s pat rep : String) : String :=
  if pat.data.isEmpty then s
  else ⟨pyReplaceAux pat.data rep.data s.data.length s.data⟩

def pySplitAux (pat : List Char) : Nat → List Char → List Char → List (List Char)
  | _, [], acc => [acc.reverse]
  | 0, s, acc => [acc.reverse ++ s]
  | fuel + 1, c :: cs, acc =>
    if pat.isPrefixOf (c :: cs) then
      acc.reverse :: pySplitAux pat fuel (cs.drop (pat.length - 1)) []
    else
      pySplitAux pat fuel cs (c :: acc)

/-- Python `s.split(pat)` for a non-empty separator: the maximal pieces of
`s` between left-to-right, non-overlapping occurrences of `pat`, empty
pieces included.  (For an empty separator `[s]` is returned; the source
never passes one.) -/
def pySplit (s pat : String) : List String :=
  if pat.data.isEmpty then [s]
  else (pySplitAux pat.data s.data.length s.data []).map (fun l => ⟨l⟩)

/-- Python `s.strip()`: leading and trailing whitespace removed. -/
def pyStrip (s : String) : String :=
  ⟨((s.data.dropWhile Char.isWhitespace).reverse.dropWhile Char.isWhitespace).reverse⟩

/-- Python `s.lower()`: every character lowercased. -/
def pyLower (s : String) : String :=
  ⟨s.data.map Char.toLower⟩

/-- Python `s.startswith(pre)`. -/
def pyStartsWith (s pre : String) : Bool :=
  pre.data.isPrefixOf s.data

/-- A unit of rich-text output: plain text, emphasized text, or a hyperlink
with a target and a display string. -/
inductive Fragment where
  | str : String → Fragment
  | em : String → Fragment
  | link : String → String → Fragment
deriving DecidableEq, Repr

/-- A bibliography entry: a key-value mapping of scalar fields and a mapping
from role names (author, editor, ...) to ordered person lists.  Persons are
opaque values of type `P`; the external styling framework renders them to
strings. -/
structure Entry (P : Type) where
  fields : List (String × String)
  persons : List (String × List P)
deriving DecidableEq, Repr

/-- The pybtex `FieldIsMissing` exception, which carries the missing field or
role name and the entry it was requested from. -/
inductive FieldError (P : Type) where
  | fieldIsMissing : String → Entry P → FieldError P
deriving DecidableEq, Repr

/-- Python `name in e.fields` (key membership in the field mapping). -/
def hasField {P : Type} (e : Entry P) (name : String) : Bool :=
  (e.fields.lookup name).isSome

/-- pybtex `field(name, raw=True)` evaluated against an entry: the field's
value, or `FieldIsMissing(name, entry)` when the key is absent. -/
def getField {P : Type} (e : Entry P) (name : String) : Except (FieldError P) String :=
  match e.fields.lookup name with
  | some v => Except.ok v
  | none => Except.error (FieldError.fieldIsMissing name e)

/-- pybtex `Text(sep).join(parts)` for parts that are plain rendered names:
the names interspersed with the separator. -/
def joinText (sep : String) (parts : List String) : List Fragment :=
  List.intersperse (Fragment.str sep) (parts.map Fragment.str)

/-- The `et_al` template node of `docs/conf.py` (lines 402-415), applied to
already-rendered child names.  `sep2` and `last_sep` default to `sep` when
not given.  Children that render empty are filtered out (`if part`); then:
at most one part is returned as-is; two parts are joined with `sep2`; three
parts join the first two with `sep` and the third with `last_sep`; four or
more parts yield the first part followed by `Tag("em", " et al")`. -/
def et_al (sep : String) (sep2? last_sep? : Option String)
    (children : List String) : List Fragment :=
  let sep2 := sep2?.getD sep
  let last_sep := last_sep?.getD sep
  let parts := children.filter (fun p => !p.isEmpty)
  if parts.length ≤ 1 then
    parts.map Fragment.str
  else if parts.length = 2 then
    joinText sep2 parts
  else if parts.length = 3 then
    joinText sep parts.dropLast ++ [Fragment.str last_sep, Fragment.str (parts.getLastD "")]
  else
    [Fragment.str (parts.headD ""), Fragment.em " et al"]

/-- The `names` template node of `docs/conf.py` (lines 418-431), evaluated
against an entry: look the role up in `entry.persons` (a `KeyError` becomes
`FieldIsMissing(role, entry)`), render each person with the style's name
formatter `fn`, and join the rendered names with `et_al`. -/
def names {P : Type} (fn : P → String) (e : Entry P) (role : String)
    (sep : String) (sep2? last_sep? : Option String) :
    Except (FieldError P) (List Fragment) :=
  match e.persons.lookup role with
  | none => Except.error (FieldError.fieldIsMissing role e)
  | some persons => Except.ok (et_al sep sep2? last_sep? (persons.map fn))

/-- Embeds `MyStyle.format_names` of `docs/conf.py` (lines 438-442):
`names(role, sep=", ", sep2=" and ", last_sep=", and ")`, optionally wrapped
in the external pybtex `sentence` template when `asSentence` is true.  The
sentence wrapper belongs to the external library and is passed in abstractly
as `wrap`; it only post-processes the successfully formatted fragments, so
errors propagate through it unchanged. -/
def format_names {P : Type} (fn : P → String) (e : Entry P) (role : String)
    (asSentence : Bool) (wrap : List Fragment → List Fragment) :
    Except (FieldError P) (List Fragment) :=
  (names fn e role ", " (some " and ") (some ", and ")).map
    (fun t => if asSentence then wrap t else t)

/-- Embeds `MyStyle.format_eprint` of `docs/conf.py` (lines 444-447): an empty
fragment when the entry has a `doi` field, otherwise the inherited
`UnsrtStyle.format_eprint`, which belongs to the external library and is
passed in abstractly as `superEprint`. -/
def format_eprint {P : Type}
    (superEprint : Entry P → Except (FieldError P) (List Fragment))
    (e : Entry P) : Except (FieldError P) (List Fragment) :=
  if hasField e "doi" then Except.ok [] else superEprint e

/-- Embeds `remove_http` of `docs/conf.py` (lines 479-483): Python `str.replace`
removes every occurrence of "https://", then every occurrence of "http://". -/
def remove_http (input_str : String) : String :=
  pyReplace (pyReplace input_str "https://" "") "http://" ""

/-- Embeds `MyStyle.format_url` of `docs/conf.py` (lines 449-457): an empty fragment
when the entry has a `doi` or an `eprint` field; otherwise
`words[href[field("url"), field("url", apply_func=remove_http)]]` evaluated
against the entry: a hyperlink whose target is the `url` field and whose
display string is `remove_http` of it (`words` with a single child adds no
separator).  Evaluating `field("url")` on an entry without a `url` field
raises `FieldIsMissing`. -/
def format_url {P : Type} (e : Entry P) : Except (FieldError P) (List Fragment) :=
  if hasField e "doi" || hasField e "eprint" then
    Except.ok []
  else
    (getField e "url").map (fun url => [Fragment.link url (remove_http url)])

/-- Embeds `remove_dashes_and_spaces` of `docs/conf.py` (lines 472-476): Python
`str.replace` removes every "-", then every " ". -/
def remove_dashes_and_spaces (isbn : String) : String :=
  pyReplace (pyReplace isbn "-" "") " " ""

/-- Embeds `MyStyle.format_isbn` of `docs/conf.py` (lines 459-469):
`href[join["https://isbnsearch.org/isbn/", field("isbn", apply_func=remove_dashes_and_spaces)], join["ISBN:", field("isbn")]]`
evaluated against the entry: a hyperlink whose target prepends the search URL
to the normalized ISBN and whose display string prepends "ISBN:" to the raw
ISBN.  There is no condition on any other field. -/
def format_isbn {P : Type} (e : Entry P) : Except (FieldError P) (List Fragment) :=
  (getField e "isbn").map (fun isbn =>
    [Fragment.link ("https://isbnsearch.org/isbn/" ++ remove_dashes_and_spaces isbn)
      ("ISBN:" ++ isbn)])

/-- The code-point ranges of the Unicode general category Nd (decimal digit),
which is what Python's `\d` matches in a `str` pattern (generated from
CPython's `unicodedata`). -/
def unicodeDigitRanges : List (Nat × Nat) :=
  [(0x30, 0x39), (0x660, 0x669), (0x6F0, 0x6F9), (0x7C0, 0x7C9),
   (0x966, 0x96F), (0x9E6, 0x9EF), (0xA66, 0xA6F), (0xAE6, 0xAEF),
   (0xB66, 0xB6F), (0xBE6, 0xBEF), (0xC66, 0xC6F), (0xCE6, 0xCEF),
   (0xD66, 0xD6F), (0xDE6, 0xDEF), (0xE50, 0xE59), (0xED0, 0xED9),
   (0xF20, 0xF29), (0x1040, 0x1049), (0x1090, 0x1099), (0x17E0, 0x17E9),
   (0x1810, 0x1819), (0x1946, 0x194F), (0x19D0, 0x19D9), (0x1A80, 0x1A89),
   (0x1A90, 0x1A99), (0x1B50, 0x1B59), (0x1BB0, 0x1BB9), (0x1C40, 0x1C49),
   (0x1C50, 0x1C59), (0xA620, 0xA629), (0xA8D0, 0xA8D9), (0xA900, 0xA909),
   (0xA9D0, 0xA9D9), (0xA9F0, 0xA9F9), (0xAA50, 0xAA59), (0xABF0, 0xABF9),
   (0xFF10, 0xFF19), (0x104A0, 0x104A9), (0x10D30, 0x10D39), (0x11066, 0x1106F),
   (0x110F0, 0x110F9), (0x11136, 0x1113F), (0x111D0, 0x111D9), (0x112F0, 0x112F9),
   (0x11450, 0x11459), (0x114D0, 0x114D9), (0x11650, 0x11659), (0x116C0, 0x116C9),
   (0x11730, 0x11739), (0x118E0, 0x118E9), (0x11950, 0x11959), (0x11C50, 0x11C59),
   (0x11D50, 0x11D59), (0x11DA0, 0x11DA9), (0x16A60, 0x16A69), (0x16AC0, 0x16AC9),
   (0x16B50, 0x16B59), (0x1D7CE, 0x1D7FF), (0x1E140, 0x1E149), (0x1E2F0, 0x1E2F9),
   (0x1E950, 0x1E959), (0x1FBF0, 0x1FBF9)]

/-- Python `\d` for `str` patterns: a character of Unicode category Nd. -/
def isUnicodeDigit (c : Char) : Bool :=
  unicodeDigitRanges.any (fun r => r.1 ≤ c.toNat && c.toNat ≤ r.2)

/-- The Python regular-expression test `re.match(r"^\d+$", s)`: a non-empty
run of Unicode decimal digits spans `s`, except that `$` may also match just
before one newline at the very end of the string, so exactly one trailing
newline is tolerated (CPython: `re.match(r"^\d+$", "123\n")` matches while
`"\n"`, `"12\n3"` and `"123\n\n"` do not). -/
def matchesDigits (s : String) : Bool :=
  let body := if s.data.getLast? == some '\n' then s.data.dropLast else s.data
  !body.isEmpty && body.all isUnicodeDigit

/-- Embeds `get_branch_name` of `docs/conf.py` (lines 49-55).  The environment is
passed in explicitly: `env` is `os.environ.get("READTHEDOCS_VERSION")`, so
`env.getD "stable"` is the `os.environ.get(..., "stable")` call. -/
def get_branch_name (env : Option String) : String :=
  let branch_name := env.getD "stable"
  if branch_name = "latest" then "main"
  else if matchesDigits branch_name then "stable"
  else branch_name

/-- The `version_remapping` table of `docs/conf.py` (lines 193-205). -/
def version_remapping : List (String × List (String × String)) :=
  [("ipython", [("8.12.2", "8.12.1"), ("8.12.3", "8.12.1")]),
   ("ipywidgets",
    [("8.0.3", "8.0.5"), ("8.0.4", "8.0.5"), ("8.0.6", "8.0.5"), ("8.1.1", "8.1.2")]),
   ("matplotlib", [("3.5.1", "3.5.0")])]

/-- One line of the constraints file, processed as in `get_version`: the part
before the first "#", whitespace-trimmed, lowercased. -/
def cleanLine (line : String) : String :=
  pyLower (pyStrip ((pySplit line "#").headD ""))

/-- The loop body of `get_version` of `docs/conf.py` (lines 214-233), over the
lines of the constraints file: skip lines whose cleaned form does not start
with the (lowercased) package name, is empty, or does not split on "==" into
exactly two segments; at the first remaining line, return the remapped
version when `version_remapping` has an entry for the package and the
installed version, else the installed version; return "stable" when the lines
run out. -/
def getVersionLoop (pkg : String) : List String → String
  | [] => "stable"
  | line :: rest =>
    let l := cleanLine line
    if !(pyStartsWith l pkg) then getVersionLoop pkg rest
    else if l.isEmpty then getVersionLoop pkg rest
    else if (pySplit l "==").length ≠ 2 then getVersionLoop pkg rest
    else
      let installed := pyStrip ((pySplit l "==").getD 1 "")
      match version_remapping.lookup pkg with
      | some remap => (remap.lookup installed).getD installed
      | none => installed

/-- Embeds `get_version` of `docs/conf.py` (lines 208-233).  The constraints file's
content is passed in explicitly as `constraints` (the source reads it from
`../.constraints/py<version>.txt`); the package name is lowercased before the
scan. -/
def get_version (constraints : String) (package_name : String) : String :=
  getVersionLoop (pyLower package_name) (pySplit constraints "\n")

/-- A constraints line qualifies for a (lowercased) package name when its
cleaned form starts with the package name and splits on "==" into exactly two
segments.  This is the spec's description of the line `get_version` stops at. -/
def qualifies (pkg : String) (line : String) : Bool :=
  pyStartsWith (cleanLine line) pkg && (pySplit (cleanLine line) "==").length == 2

/-- The value `get_version` returns for a qualifying line: the second "=="
segment, trimmed, remapped through `version_remapping` when the package and
that version both have an entry. -/
def lineResult (pkg : String) (line : String) : String :=
  let installed := pyStrip ((pySplit (cleanLine line) "==").getD 1 "")
  match version_remapping.lookup pkg with
  | some remap => (remap.lookup installed).getD installed
  | none => installed

/-- Modelled from the spec: the claim's reading of `remove_http`, stripping
only a leading "http://" or "https://" scheme and leaving the rest of the URL
unchanged.  Used to compare against the source's `remove_http`. -/
def stripSchemeOnlyAtStart (s : String) : String :=
  if pyStartsWith s "https://" then ⟨s.data.drop 8⟩
  else if pyStartsWith s "http://" then ⟨s.data.drop 7⟩
  else s

/-!
Theorems settling the specification claims.
-/

/-- The value of `et_al` at the separators `format_names` passes, as a branch table on the
filtered rendered names. -/
theorem et_al_filter_cases (l : List String) :
    et_al ", " (some " and ") (some ", and ") l =
      match l.filter (fun p => !p.isEmpty) with
      | [] => []
      | [a] => [Fragment.str a]
      | [a, b] => [Fragment.str a, Fragment.str " and ", Fragment.str b]
      | [a, b, c] =>
        [Fragment.str a, Fragment.str ", ", Fragment.str b,
         Fragment.str ", and ", Fragment.str c]
      | a :: _ :: _ :: _ :: _ => [Fragment.str a, Fragment.em " et al"] := by
  unfold et_al joinText
  rcases hf : l.filter (fun p => !p.isEmpty) with _ | ⟨a, _ | ⟨b, _ | ⟨c, _ | ⟨d, rest⟩⟩⟩⟩ <;>
    simp [hf, List.intersperse]

/-- Claim C1: for every list of rendered person names, after filtering out
empty entries, `format_names` (through `et_al` with `sep=", "`,
`sep2=" and "`, `last_sep=", and "`) joins them by an exact count-based
branch table: 0 or 1 names are returned as-is with no separator; exactly 2
names are joined with " and "; exactly 3 names are joined as first and
second with ", " and then the third with ", and "; 4 or more names yield
only the first name followed by an emphasized " et al" fragment, with all
remaining names discarded. -/
theorem format_names_branch_table {P : Type} (fn : P → String) (e : Entry P)
    (role : String) (ps : List P) (h : e.persons.lookup role = some ps) :
    format_names fn e role false id =
      Except.ok
        (match (ps.map fn).filter (fun p => !p.isEmpty) with
         | [] => []
         | [a] => [Fragment.str a]
         | [a, b] => [Fragment.str a, Fragment.str " and ", Fragment.str b]
         | [a, b, c] =>
           [Fragment.str a, Fragment.str ", ", Fragment.str b,
            Fragment.str ", and ", Fragment.str c]
         | a :: _ :: _ :: _ :: _ => [Fragment.str a, Fragment.em " et al"]) := by
  unfold format_names names
  rw [h]
  simp only [Except.map]
  rw [et_al_filter_cases]
  simp

/-- Witness for C1 at four persons "A", "B", "C", "D": only "A" survives,
followed by the emphasized " et al" fragment. -/
def entryFourAuthors : Entry String :=
  ⟨[], [("author", ["A", "B", "C", "D"])]⟩

theorem format_names_branch_table_witness :
    format_names id entryFourAuthors "author" false id =
      Except.ok [Fragment.str "A", Fragment.em " et al"] :=
  format_names_branch_table id entryFourAuthors "author" ["A", "B", "C", "D"] rfl

/-- Claim C2: `format_eprint` returns an empty fragment whenever the field
`doi` is present in the entry's fields, and otherwise — in particular when
`eprint` is present without `doi` — it returns the inherited default eprint
formatting (`superEprint`) unchanged. -/
theorem format_eprint_doi_priority {P : Type}
    (superEprint : Entry P → Except (FieldError P) (List Fragment)) (e : Entry P) :
    (hasField e "doi" = true → format_eprint superEprint e = Except.ok []) ∧
    (hasField e "doi" = false → format_eprint superEprint e = superEprint e) := by
  constructor <;> intro h <;> simp [format_eprint, h]

/-- A stand-in for the external inherited `UnsrtStyle.format_eprint`, used by
the witnesses. -/
def superEprintW : Entry Unit → Except (FieldError Unit) (List Fragment) :=
  fun _ => Except.ok [Fragment.str "arXiv:1234.5678"]

def entryDoiEprint : Entry Unit :=
  ⟨[("doi", "10.1000/xyz"), ("eprint", "1234.5678")], []⟩

def entryEprintOnly : Entry Unit :=
  ⟨[("eprint", "1234.5678")], []⟩

/-- Witness for C2: with both `doi` and `eprint` the eprint fragment is
empty; with only `eprint` the inherited formatting is returned. -/
theorem format_eprint_doi_priority_witness :
    format_eprint superEprintW entryDoiEprint = Except.ok [] ∧
    format_eprint superEprintW entryEprintOnly =
      Except.ok [Fragment.str "arXiv:1234.5678"] :=
  ⟨(format_eprint_doi_priority superEprintW entryDoiEprint).1 rfl,
   (format_eprint_doi_priority superEprintW entryEprintOnly).2 rfl⟩

/-- Claim C3: `format_url` returns an empty fragment if either `doi` or
`eprint` is present in the entry's fields; a URL link fragment is produced
only when the entry has `url` and neither `doi` nor `eprint` (with no `url`
field and no `doi`/`eprint`, evaluating the template raises
`FieldIsMissing`). -/
theorem format_url_cases {P : Type} (e : Entry P) :
    format_url e =
      if hasField e "doi" || hasField e "eprint" then Except.ok []
      else
        match e.fields.lookup "url" with
        | some url => Except.ok [Fragment.link url (remove_http url)]
        | none => Except.error (FieldError.fieldIsMissing "url" e) := by
  unfold format_url getField
  rcases e.fields.lookup "url" with _ | url <;> split <;> simp [Except.map]

/-- Claim C4: for every entry whose fields contain `isbn`, `format_isbn`
produces a hyperlink whose target is "https://isbnsearch.org/isbn/" followed
by the ISBN with every "-" and " " removed, and whose display text is
"ISBN:" followed by the original unnormalized ISBN; the statement depends on
no field other than `isbn`, so the rendering is independent of `doi` and
`eprint`. -/
theorem format_isbn_unconditional {P : Type} (e : Entry P) (isbn : String)
    (h : e.fields.lookup "isbn" = some isbn) :
    format_isbn e =
      Except.ok
        [Fragment.link
          ("https://isbnsearch.org/isbn/" ++ pyReplace (pyReplace isbn "-" "") " " "")
          ("ISBN:" ++ isbn)] := by
  unfold format_isbn getField remove_dashes_and_spaces
  rw [h]
  rfl

def entryIsbnDoiEprint : Entry Unit :=
  ⟨[("isbn", "0-13-468599-7"), ("doi", "10.1000/xyz"), ("eprint", "1234.5678")], []⟩

/-- Witness for C4 at `isbn="0-13-468599-7"` on an entry that also has `doi`
and `eprint`: the link target is the search URL with the dashes stripped and
the display text keeps the dashes. -/
theorem format_isbn_unconditional_witness :
    format_isbn entryIsbnDoiEprint =
      Except.ok
        [Fragment.link "https://isbnsearch.org/isbn/0134685997" "ISBN:0-13-468599-7"] := by
  rw [format_isbn_unconditional entryIsbnDoiEprint "0-13-468599-7" rfl]
  rfl

def entryUrlTwice : Entry Unit :=
  ⟨[("url", "http://example.com/redirect?to=http://other.org")], []⟩

/-- Counterexample to C5: `remove_http` is Python `str.replace`, which
removes every occurrence of "https://" and "http://", not only a scheme
prefix.  On a URL that contains "http://" a second time, the display text
produced by `format_url` differs from the claim's prefix-only stripping
(`stripSchemeOnlyAtStart`). -/
theorem format_url_display_not_prefix_only :
    format_url entryUrlTwice =
      Except.ok
        [Fragment.link "http://example.com/redirect?to=http://other.org"
          "example.com/redirect?to=other.org"] ∧
    stripSchemeOnlyAtStart "http://example.com/redirect?to=http://other.org" =
      "example.com/redirect?to=http://other.org" ∧
    ("example.com/redirect?to=other.org" : String) ≠
      "example.com/redirect?to=http://other.org" :=
  ⟨rfl, rfl, by decide⟩

/-- Claim C5 as amended: for every entry with `url` present and neither
`doi` nor `eprint`, the URL link fragment produced by `format_url` has as
its target the full unchanged URL string, and as its display text the URL
with every occurrence of "https://" removed and then every occurrence of
"http://" removed (Python `str.replace`; for a URL in which the scheme
occurs only as the leading prefix this strips exactly that prefix). -/
theorem format_url_target_and_display {P : Type} (e : Entry P) (url : String)
    (h1 : hasField e "doi" = false) (h2 : hasField e "eprint" = false)
    (h3 : e.fields.lookup "url" = some url) :
    format_url e =
      Except.ok [Fragment.link url (pyReplace (pyReplace url "https://" "") "http://" "")] := by
  unfold format_url getField remove_http
  rw [h1, h2, h3]
  rfl

def entryUrlOnly : Entry Unit :=
  ⟨[("url", "https://example.com/x")], []⟩

/-- Witness for the amended C5 at `url="https://example.com/x"` with no
`doi`/`eprint`: the target keeps the full URL, the display text drops the
scheme. -/
theorem format_url_target_and_display_witness :
    format_url entryUrlOnly =
      Except.ok [Fragment.link "https://example.com/x" "example.com/x"] := by
  rw [format_url_target_and_display entryUrlOnly "https://example.com/x" rfl rfl rfl]
  rfl

def entryEmptyEditors : Entry Unit :=
  ⟨[], [("editor", [])]⟩

/-- Counterexample to C6: on an entry whose persons mapping contains the role
"editor" mapped to an empty person list — a role with no persons — the
`names` lookup succeeds (Python raises `KeyError` only for an absent key), so
`format_names` raises no error and returns an empty fragment list. -/
theorem format_names_empty_role_no_error :
    entryEmptyEditors.persons.lookup "editor" = some [] ∧
    format_names (fun _ => "X") entryEmptyEditors "editor" false id = Except.ok [] :=
  ⟨rfl, rfl⟩

/-- Claim C6 as amended: `format_names` raises `FieldIsMissing`, naming the
requested role and the entry, exactly when the role is absent from the
entry's persons mapping; whenever the role is present in the mapping — in
particular for a role with at least one person — no error is raised. -/
theorem format_names_missing_role {P : Type} (fn : P → String) (e : Entry P)
    (role : String) (asSentence : Bool) (wrap : List Fragment → List Fragment) :
    (e.persons.lookup role = none →
      format_names fn e role asSentence wrap =
        Except.error (FieldError.fieldIsMissing role e)) ∧
    (∀ ps, e.persons.lookup role = some ps →
      ∃ t, format_names fn e role asSentence wrap = Except.ok t) := by
  constructor
  · intro h
    simp [format_names, names, h, Except.map]
  · intro ps h
    exact ⟨_, by unfold format_names names; rw [h]; rfl⟩

def entryNoEditors : Entry Unit :=
  ⟨[], [("author", [()])]⟩

/-- Witness for the amended C6: requesting "editor" names on an entry whose
persons mapping has only an "author" key raises `FieldIsMissing` naming
"editor" and the entry. -/
theorem format_names_missing_role_witness :
    format_names (fun _ => "X") entryNoEditors "editor" true id =
      Except.error (FieldError.fieldIsMissing "editor" entryNoEditors) :=
  (format_names_missing_role (fun _ => "X") entryNoEditors "editor" true id).1 rfl

def entryIsbnUrl : Entry Unit :=
  ⟨[("isbn", "0-13-468599-7"), ("url", "https://example.com/x")], []⟩

def entryNoIdentifiers : Entry Unit :=
  ⟨[("title", "Some Title")], []⟩

/-- Counterexample to C7: an entry with both `isbn` and `url` (and neither
`doi` nor `eprint`) renders two non-empty identifier fragments — the ISBN
rendering is unconditional, so it does not suppress the URL link and nothing
suppresses it.  An entry with none of the fields renders none (the url
template raises `FieldIsMissing` instead of producing a link).  In neither
case is precisely one non-empty identifier fragment rendered. -/
theorem identifier_not_exactly_one :
    format_url entryIsbnUrl =
      Except.ok [Fragment.link "https://example.com/x" "example.com/x"] ∧
    format_isbn entryIsbnUrl =
      Except.ok
        [Fragment.link "https://isbnsearch.org/isbn/0134685997" "ISBN:0-13-468599-7"] ∧
    ([Fragment.link "https://example.com/x" "example.com/x"] : List Fragment) ≠ [] ∧
    ([Fragment.link "https://isbnsearch.org/isbn/0134685997" "ISBN:0-13-468599-7"] :
      List Fragment) ≠ [] ∧
    format_isbn entryNoIdentifiers =
      Except.error (FieldError.fieldIsMissing "isbn" entryNoIdentifiers) :=
  ⟨rfl, rfl, by decide, by decide, rfl⟩

/-- Claim C7 as amended: the fixed suppression order DOI > eprint > URL
holds among the overridden formatters — when `doi` is present both the
eprint and the url fragments are empty, and when `eprint` is present the url
fragment is empty — but the isbn fragment is rendered independently whenever
`isbn` is present, so an entry need not render exactly one identifier
fragment. -/
theorem identifier_suppression_order {P : Type}
    (superEprint : Entry P → Except (FieldError P) (List Fragment)) (e : Entry P) :
    (hasField e "doi" = true →
      format_eprint superEprint e = Except.ok [] ∧ format_url e = Except.ok []) ∧
    (hasField e "eprint" = true → format_url e = Except.ok []) := by
  constructor
  · intro h
    constructor <;> simp [format_eprint, format_url, h]
  · intro h
    simp [format_url, h]

def entryDoiUrl : Entry Unit :=
  ⟨[("doi", "10.1000/xyz"), ("url", "https://example.com/x")], []⟩

/-- Witness for the amended C7: with `doi` present, both the eprint and the
url fragments are empty. -/
theorem identifier_suppression_order_witness :
    format_eprint superEprintW entryDoiUrl = Except.ok [] ∧
    format_url entryDoiUrl = Except.ok [] :=
  (identifier_suppression_order superEprintW entryDoiUrl).1 rfl

/-- Claim C8: the formatters are deterministic pure functions of the entry's
data — formatting the same entry twice yields identical fragments.  In this
embedding each formatter is a Lean function of the entry (and of its
explicitly passed collaborators), so repeated application is definitionally
equal; the Python source likewise reads the entry without mutating it and
touches no other state. -/
theorem formatters_deterministic {P : Type} (fn : P → String)
    (superEprint : Entry P → Except (FieldError P) (List Fragment)) (e : Entry P)
    (role : String) (asSentence : Bool) (wrap : List Fragment → List Fragment) :
    format_names fn e role asSentence wrap = format_names fn e role asSentence wrap ∧
    format_eprint superEprint e = format_eprint superEprint e ∧
    format_url e = format_url e ∧
    format_isbn e = format_isbn e :=
  ⟨rfl, rfl, rfl, rfl⟩

/-- A character list whose last element is a newline is not all decimal
digits. -/
theorem all_digits_no_trailing_newline (l : List Char) (h : l.getLast? = some '\n') :
    l.all isUnicodeDigit = false := by
  induction l with
  | nil => simp at h
  | cons c cs ih =>
    cases cs with
    | nil =>
      simp at h
      subst h
      decide
    | cons c2 cs2 =>
      rw [List.getLast?_cons_cons] at h
      simp [List.all_cons, ih h]

/-- Counterexample to C9: for READTHEDOCS_VERSION = "123\n" — a value that is
neither "latest" nor a string consisting entirely of decimal digits (its
last character is a newline) — the claim says the value is returned
unchanged, but `re.match(r"^\d+$", "123\n")` matches (Python's `$` also
matches just before a newline that ends the string), so `get_branch_name`
returns "stable" instead. -/
theorem get_branch_name_trailing_newline :
    get_branch_name (some "123\n") = "stable" ∧
    ("123\n" : String) ≠ "latest" ∧
    "123\n".data.all isUnicodeDigit = false ∧
    ("stable" : String) ≠ "123\n" :=
  ⟨rfl, by decide, by decide, by decide⟩

/-- Claim C9 as amended: `get_branch_name` returns "main" when the
READTHEDOCS_VERSION environment variable equals "latest"; returns "stable"
when that variable is unset, or when its value is a non-empty run of
Unicode decimal digits optionally followed by one final newline (the Python
regex `^\d+$`, whose `$` also matches just before a trailing newline — a PR
preview); and otherwise returns the variable's value unchanged. -/
theorem get_branch_name_characterization (env : Option String) :
    get_branch_name env =
      match env with
      | none => "stable"
      | some s =>
        if s = "latest" then "main"
        else if (!s.data.isEmpty && s.data.all isUnicodeDigit)
            || (!s.data.dropLast.isEmpty && s.data.dropLast.all isUnicodeDigit
                && s.data.getLast? == some '\n') then "stable"
        else s := by
  cases env with
  | none => rfl
  | some s =>
    unfold get_branch_name matchesDigits
    simp only [Option.getD_some]
    by_cases hlatest : s = "latest"
    · simp [hlatest]
    · simp only [hlatest, if_false]
      cases hl : (s.data.getLast? == some '\n') with
      | false =>
        simp [hl]
      | true =>
        have h' : s.data.getLast? = some '\n' := by simpa using hl
        simp [hl, all_digits_no_trailing_newline s.data h']

/-- Claim C10: `get_version` lowercases the package name, scans the
constraints file line by line, and at the first comment-stripped,
whitespace-trimmed, lowercased line that starts with the package name and
splits on "==" into exactly two segments, returns the remapped version from
`version_remapping` when that table has an entry for the package and the
installed version, and otherwise the installed version; if no line
qualifies, it returns "stable". -/
theorem get_version_characterization (constraints package_name : String) :
    get_version constraints package_name =
      match (pySplit constraints "\n").find? (qualifies (pyLower package_name)) with
      | some line => lineResult (pyLower package_name) line
      | none => "stable" := by
  unfold get_version
  generalize pySplit constraints "\n" = lines
  generalize pyLower package_name = pkg
  induction lines with
  | nil => rfl
  | cons line rest ih =>
    by_cases hs : pyStartsWith (cleanLine line) pkg = true
    · by_cases h2 : (pySplit (cleanLine line) "==").length = 2
      · have hne : (cleanLine line).isEmpty = false := by
          rcases he : (cleanLine line).isEmpty
          · rfl
          · exfalso
            rw [(String.isEmpty_iff (cleanLine line)).mp he] at h2
            exact absurd h2 (by decide)
        have hq : qualifies pkg line = true := by
          simp [qualifies, hs, h2]
        rw [List.find?_cons_of_pos rest hq]
        simp [getVersionLoop, hs, hne, h2, lineResult]
      · have hq : ¬ qualifies pkg line = true := by
          simp [qualifies, hs, h2]
        rw [List.find?_cons_of_neg rest hq, ← ih]
        simp [getVersionLoop, hs, h2]
    · have hq : ¬ qualifies pkg line = true := by
        simp [qualifies, hs]
      rw [List.find?_cons_of_neg rest hq, ← ih]
      simp [getVersionLoop, hs]
